import Mathlib

/-!
Verification of the span-lifecycle core of codibre/nestjs-instrumentation.

The development shallowly embeds the two variants of the library
(the OpenTelemetry variant and the New Relic variant):

* otel.interceptor.ts        : OtelInterceptor.intercept / finishSpan / recordError
* otel-context-guard.ts      : OtelContextGuard.canActivate
* otel-instrumentation.ts    : otelInstrumentation.recordException / addAttributes
* newrelic.interceptor.ts    : NewRelicInterceptor.intercept / finishTransaction
* newrelic-context-guard.ts  : NewrelicContextGuard.canActivate
* internal/internal-context.ts : InternalContext over AsyncLocalStorage

External collaborators (the tracing SDKs and the event-emitter subscribers)
are modelled as behaviour parameters: each call site that may throw is given
an explicit result of type Except JSVal _ in an environment record.  The
embedded functions return, besides the outcome observed by the caller, the
lists of effects they performed (end calls, recorded exceptions, attribute
maps, emitted events) so that theorems can speak about them.
-/

/-- A JavaScript runtime value as observed by the instrumentation code:
whether it is an Error instance, its name / message / stack fields
(some s when the field is present and a string, none when absent or
non-string), and its String(v) rendering. -/
structure JSVal where
  isError : Bool
  name : Option String
  message : Option String
  stack : Option String
  str : String
deriving DecidableEq, Repr

/-- The value new Error(s) built by recordError for non-Error thrown values. -/
def mkError (s : String) : JSVal :=
  { isError := true, name := some "Error", message := some s, stack := none, str := s }

/-- JavaScript a || b on a possibly-absent string field: the field is used
when present and truthy (a non-empty string), otherwise the fallback. -/
def jsOr : Option String → String → String
  | some s, fb => if s = "" then fb else s
  | none, fb => fb

/-- JavaScript truthiness of a string-or-undefined value. -/
def truthy : Option String → Bool
  | some s => s != ""
  | none => false

/-- Events emitted on the shared EventEmitter by the two variants. -/
inductive Event where
  | spanStarted (traceId : String)
  | spanStartFailed (e : JSVal)
  | spanFinished (traceId : String)
  | spanFinishFailed (e : JSVal)
  | transactionStarted (traceId : Option String)
  | transactionStartFailed (traceId : Option String) (e : JSVal)
  | transactionFinished (traceId : Option String)
  | transactionFinishFailed (e : JSVal)
deriving DecidableEq, Repr

/-- Outcome of the handler body: a success value or a thrown error. -/
inductive Outcome (α : Type) where
  | ok (v : α)
  | err (e : JSVal)
deriving DecidableEq, Repr

namespace otelInstrumentation

/-- recordException from otel-instrumentation.ts: looks up the active span
and calls span.recordException inside a try/catch that swallows every
exception; spanPresent tells whether an active span exists, spanRecord is
the behaviour of the underlying span.recordException call. -/
def recordException (spanPresent : Bool) (spanRecord : Except JSVal Unit) :
    Except JSVal Unit :=
  match (if spanPresent then spanRecord else Except.ok ()) with
  | Except.ok _ => Except.ok ()
  | Except.error _ => Except.ok ()

/-- addAttributes from otel-instrumentation.ts: looks up the active span and
calls span.setAttributes inside a try/catch that swallows every exception. -/
def addAttributes (spanPresent : Bool) (spanSetAttributes : Except JSVal Unit) :
    Except JSVal Unit :=
  match (if spanPresent then spanSetAttributes else Except.ok ()) with
  | Except.ok _ => Except.ok ()
  | Except.error _ => Except.ok ()

end otelInstrumentation

/-- Environment of one OtelInterceptor run: the active span's trace id at
intercept time (none when no span is active), the customTransactionId read
from InternalContext inside finishSpan, and the behaviour of each external
call (span.end, span.recordException, span.setAttributes, emitter.emit). -/
structure OtelEnv where
  activeSpan : Option String
  marker : Option String
  endSpan : Except JSVal Unit
  spanPresentAtRecord : Bool
  spanRecord : Except JSVal Unit
  spanSetAttributes : Except JSVal Unit
  emit : Event → Except JSVal Unit

/-- Result of finishSpan: emitted events, number of span.end invocations,
and the exception escaping the method if any. -/
structure FinRes where
  events : List Event
  endCalls : Nat
  thrown : Option JSVal
deriving Repr

/-- Result of recordError: the arguments passed to
otelInstrumentation.recordException, the (name, message, stack) attribute
triples passed to addAttributes, emitted events, escaping exception. -/
structure RecRes where
  recordExceptionArgs : List JSVal
  attributeSets : List (String × String × String)
  events : List Event
  thrown : Option JSVal
deriving Repr

/-- Result of an OtelInterceptor.intercept run. -/
structure OtelRes (α : Type) where
  outcome : Outcome α
  endCalls : Nat
  recordExceptionArgs : List JSVal
  attributeSets : List (String × String × String)
  events : List Event
deriving Repr

namespace OtelInterceptor

/-- finishSpan from otel.interceptor.ts: inside a try block, call span.end
when the captured trace id equals the stored customTransactionId, then emit
spanFinished when the trace id is truthy; the catch block emits
spanFinishFailed.  An exception thrown by the catch-block emit escapes. -/
def finishSpan (env : OtelEnv) (traceId : String) : FinRes :=
  let endCalls := if env.marker = some traceId then 1 else 0
  match (if env.marker = some traceId then env.endSpan else Except.ok ()) with
  | Except.error e =>
    match env.emit (Event.spanFinishFailed e) with
    | Except.ok _ => ⟨[Event.spanFinishFailed e], endCalls, none⟩
    | Except.error e2 => ⟨[Event.spanFinishFailed e], endCalls, some e2⟩
  | Except.ok _ =>
    if traceId != "" then
      match env.emit (Event.spanFinished traceId) with
      | Except.ok _ => ⟨[Event.spanFinished traceId], endCalls, none⟩
      | Except.error e =>
        match env.emit (Event.spanFinishFailed e) with
        | Except.ok _ =>
          ⟨[Event.spanFinished traceId, Event.spanFinishFailed e], endCalls, none⟩
        | Except.error e2 =>
          ⟨[Event.spanFinished traceId, Event.spanFinishFailed e], endCalls, some e2⟩
    else ⟨[], endCalls, none⟩

/-- recordError from otel.interceptor.ts: pass the error (wrapped into
new Error(String(error)) when it is not an Error instance) to
otelInstrumentation.recordException, then compute the error.name /
error.message / error.stack attributes, using the literal fallback object
for non-Error values, and pass them to addAttributes; the catch block
emits spanFinishFailed. -/
def recordError (env : OtelEnv) (error : JSVal) : RecRes :=
  let recArg := if error.isError then error else mkError error.str
  match otelInstrumentation.recordException env.spanPresentAtRecord env.spanRecord with
  | Except.error e =>
    match env.emit (Event.spanFinishFailed e) with
    | Except.ok _ => ⟨[recArg], [], [Event.spanFinishFailed e], none⟩
    | Except.error e2 => ⟨[recArg], [], [Event.spanFinishFailed e], some e2⟩
  | Except.ok _ =>
    let nameF := if error.isError then error.name else some "UnknownError"
    let msgF := if error.isError then error.message else some error.str
    let stackF := if error.isError then error.stack else none
    let attrs := (jsOr nameF "UnknownError", jsOr msgF error.str,
      jsOr stackF "No stack trace available")
    match otelInstrumentation.addAttributes env.spanPresentAtRecord env.spanSetAttributes with
    | Except.ok _ => ⟨[recArg], [attrs], [], none⟩
    | Except.error e =>
      match env.emit (Event.spanFinishFailed e) with
      | Except.ok _ => ⟨[recArg], [attrs], [Event.spanFinishFailed e], none⟩
      | Except.error e2 => ⟨[recArg], [attrs], [Event.spanFinishFailed e], some e2⟩

/-- intercept from otel.interceptor.ts: when no span is active the handler
outcome passes through untouched; otherwise the trace id is captured and the
rxjs tap runs finishSpan on success, and recordError followed by finishSpan
on error.  A tap callback that throws replaces the outcome delivered to the
subscriber with the thrown error (rxjs semantics). -/
def intercept {α : Type} (env : OtelEnv) (o : Outcome α) : OtelRes α :=
  match env.activeSpan with
  | none => ⟨o, 0, [], [], []⟩
  | some traceId =>
    match o with
    | Outcome.ok v =>
      let f := finishSpan env traceId
      ⟨match f.thrown with
        | none => Outcome.ok v
        | some e2 => Outcome.err e2, f.endCalls, [], [], f.events⟩
    | Outcome.err e =>
      let r := recordError env e
      match r.thrown with
      | some e2 =>
        ⟨Outcome.err e2, 0, r.recordExceptionArgs, r.attributeSets, r.events⟩
      | none =>
        let f := finishSpan env traceId
        ⟨match f.thrown with
          | none => Outcome.err e
          | some e2 => Outcome.err e2,
         f.endCalls, r.recordExceptionArgs, r.attributeSets, r.events ++ f.events⟩

end OtelInterceptor

/-- Environment of one NewRelicInterceptor.finishTransaction run: the
customTransactionId read from InternalContext, the behaviour of
newrelic.getTraceMetadata()?.traceId, of newrelic.endTransaction(), and of
emitter.emit. -/
structure NREnv where
  marker : Option String
  traceMetadata : Except JSVal (Option String)
  endTransaction : Except JSVal Unit
  emit : Event → Except JSVal Unit

/-- Result of finishTransaction: emitted events, endTransaction invocation
count, escaping exception (always none: the catch block swallows). -/
structure NRFinRes where
  events : List Event
  endCalls : Nat
  thrown : Option JSVal
deriving Repr

/-- Result of a NewRelicInterceptor.intercept run. -/
structure NRRes (α : Type) where
  outcome : Outcome α
  endCalls : Nat
  events : List Event
deriving Repr

namespace NewRelicInterceptor

/-- finishTransaction from newrelic.interceptor.ts: inside a try block, read
the stored customTransactionId and the current trace id, emit
transactionFinished with the current id, then return early when a truthy
marker is stored and the current id differs from it, otherwise call
newrelic.endTransaction(); the catch block swallows every exception
silently. -/
def finishTransaction (env : NREnv) : NRFinRes :=
  match env.traceMetadata with
  | Except.error _ => ⟨[], 0, none⟩
  | Except.ok transactionId =>
    match env.emit (Event.transactionFinished transactionId) with
    | Except.error _ => ⟨[Event.transactionFinished transactionId], 0, none⟩
    | Except.ok _ =>
      if truthy env.marker && (transactionId != env.marker) then
        ⟨[Event.transactionFinished transactionId], 0, none⟩
      else
        match env.endTransaction with
        | Except.ok _ => ⟨[Event.transactionFinished transactionId], 1, none⟩
        | Except.error _ => ⟨[Event.transactionFinished transactionId], 1, none⟩

/-- intercept from newrelic.interceptor.ts: always pipes the handler stream
through a tap that runs finishTransaction on both the next and the error
notification; finishTransaction never throws, so the outcome delivered to
the subscriber is the handler outcome. -/
def intercept {α : Type} (env : NREnv) (o : Outcome α) : NRRes α :=
  let f := finishTransaction env
  ⟨match f.thrown with
    | none => o
    | some e2 => Outcome.err e2, f.endCalls, f.events⟩

end NewRelicInterceptor

/-- Environment of one OtelContextGuard.canActivate run: the behaviour of
otelInstrumentation.getCurrentTransactionId(), of otelInstrumentation.create
(returning the new span's trace id, covering every routing-metadata shape
and the header-extraction done inside create), and of emitter.emit. -/
structure OtelGuardEnv where
  getCurrentTransactionId : Except JSVal (Option String)
  create : Except JSVal (Option String)
  emit : Event → Except JSVal Unit

/-- Result of a guard run: the value returned by canActivate (or the
exception escaping it), the customTransactionId values written into
InternalContext, the emitted events, and whether span/transaction creation
was attempted. -/
structure GuardRes where
  result : Except JSVal Bool
  stores : List String
  events : List Event
  created : Bool
deriving Repr

namespace OtelContextGuard

/-- canActivate from otel-context-guard.ts: compute the transaction name
(getTransactionName catches internally and never throws), then inside a try
block query the current trace id, return true when one is truthy, otherwise
create a span, and when the new trace id is truthy store it in
InternalContext and emit spanStarted; the catch block emits spanStartFailed;
finally return true.  An exception from the catch-block emit escapes. -/
def canActivate (env : OtelGuardEnv) : GuardRes :=
  match env.getCurrentTransactionId with
  | Except.error e =>
    match env.emit (Event.spanStartFailed e) with
    | Except.ok _ => ⟨Except.ok true, [], [Event.spanStartFailed e], false⟩
    | Except.error e2 => ⟨Except.error e2, [], [Event.spanStartFailed e], false⟩
  | Except.ok traceId =>
    if truthy traceId then ⟨Except.ok true, [], [], false⟩
    else
      match env.create with
      | Except.error e =>
        match env.emit (Event.spanStartFailed e) with
        | Except.ok _ => ⟨Except.ok true, [], [Event.spanStartFailed e], true⟩
        | Except.error e2 => ⟨Except.error e2, [], [Event.spanStartFailed e], true⟩
      | Except.ok traceId2 =>
        match traceId2 with
        | none => ⟨Except.ok true, [], [], true⟩
        | some s =>
          if s = "" then ⟨Except.ok true, [], [], true⟩
          else
            match env.emit (Event.spanStarted s) with
            | Except.ok _ => ⟨Except.ok true, [s], [Event.spanStarted s], true⟩
            | Except.error e =>
              match env.emit (Event.spanStartFailed e) with
              | Except.ok _ =>
                ⟨Except.ok true, [s], [Event.spanStarted s, Event.spanStartFailed e], true⟩
              | Except.error e2 =>
                ⟨Except.error e2, [s], [Event.spanStarted s, Event.spanStartFailed e], true⟩

end OtelContextGuard

/-- Environment of one NewrelicContextGuard.canActivate run: whether the
execution context is http-shaped, the behaviour of the first
newrelic.getTraceMetadata()?.traceId read, of startWebTransaction, of
acceptDistributedTraceHeaders, of the second getTraceMetadata read done on
the http branch, and of emitter.emit. -/
structure NRGuardEnv where
  isHttp : Bool
  traceMetadata1 : Except JSVal (Option String)
  startWebTransaction : Except JSVal Unit
  acceptDistributedTraceHeaders : Except JSVal Unit
  traceMetadata2 : Except JSVal (Option String)
  emit : Event → Except JSVal Unit

namespace NewrelicContextGuard

/-- Catch block of newrelic-context-guard.ts: emit transactionStartFailed
with the transactionId variable's current value and the caught error; an
exception from this emit escapes canActivate. -/
def onError (env : NRGuardEnv) (tid : Option String) (e : JSVal) :
    Except JSVal Bool × List Event :=
  match env.emit (Event.transactionStartFailed tid e) with
  | Except.ok _ => (Except.ok true, [Event.transactionStartFailed tid e])
  | Except.error e2 => (Except.error e2, [Event.transactionStartFailed tid e])

/-- canActivate from newrelic-context-guard.ts: read the current trace id
and return true when it is truthy; otherwise start a web transaction, on the
http branch accept distributed-trace headers and re-read the trace id, store
the id in InternalContext when truthy, and emit transactionStarted
unconditionally with the current id value; exceptions reach the catch block
(onError) carrying the transactionId value assigned so far. -/
def canActivate (env : NRGuardEnv) : GuardRes :=
  match env.traceMetadata1 with
  | Except.error e =>
    let r := onError env none e
    ⟨r.1, [], r.2, false⟩
  | Except.ok tid1 =>
    if truthy tid1 then ⟨Except.ok true, [], [], false⟩
    else
      match env.startWebTransaction with
      | Except.error e =>
        let r := onError env tid1 e
        ⟨r.1, [], r.2, true⟩
      | Except.ok _ =>
        let afterHttp : Except JSVal (Option String) :=
          if env.isHttp then
            match env.acceptDistributedTraceHeaders with
            | Except.error e => Except.error e
            | Except.ok _ => env.traceMetadata2
          else Except.ok tid1
        match afterHttp with
        | Except.error e =>
          let r := onError env tid1 e
          ⟨r.1, [], r.2, true⟩
        | Except.ok tid2 =>
          let stores : List String :=
            match tid2 with
            | some s => if s = "" then [] else [s]
            | none => []
          match env.emit (Event.transactionStarted tid2) with
          | Except.ok _ => ⟨Except.ok true, stores, [Event.transactionStarted tid2], true⟩
          | Except.error e =>
            let r := onError env tid2 e
            ⟨r.1, stores, Event.transactionStarted tid2 :: r.2, true⟩

end NewrelicContextGuard

/-- The record held by the AsyncLocalStorage of internal-context.ts. -/
structure StoreRec where
  customTransactionId : Option String
deriving DecidableEq, Repr

/-- The AsyncLocalStorage itself, modelled as a map from asynchronous call
chains (identified by a natural number) to the store record lazily created
for that chain; getStore reads the entry of the current chain and enterWith
replaces it. -/
structure ALS where
  state : Nat → Option StoreRec

/-- The storage before any chain has touched it. -/
def ALS.empty : ALS := ⟨fun _ => none⟩

namespace InternalContext

/-- The private store getter of internal-context.ts, run on chain c: return
the current chain's record, lazily entering a fresh empty record when none
exists yet; yields the record and the updated storage. -/
def store (c : Nat) (s : ALS) : StoreRec × ALS :=
  match s.state c with
  | some r => (r, s)
  | none => (⟨none⟩, ⟨fun x => if x = c then some ⟨none⟩ else s.state x⟩)

/-- The customTransactionId getter: read the field off the lazily-created
store record of the current chain. -/
def getCustomTransactionId (c : Nat) (s : ALS) : Option String × ALS :=
  let p := store c s
  (p.1.customTransactionId, p.2)

/-- The customTransactionId setter: mutate the field on the lazily-created
store record of the current chain. -/
def setCustomTransactionId (c : Nat) (v : String) (s : ALS) : ALS :=
  let p := store c s
  ⟨fun x => if x = c then some { p.1 with customTransactionId := some v } else p.2.state x⟩

end InternalContext

/-- One InternalContext operation, as performed by a unit of work. -/
inductive CtxOp where
  | get
  | set (v : String)
deriving DecidableEq, Repr

/-- Run one operation on behalf of chain c. -/
def CtxOp.run (c : Nat) (op : CtxOp) (s : ALS) : ALS :=
  match op with
  | CtxOp.get => (InternalContext.getCustomTransactionId c s).2
  | CtxOp.set v => InternalContext.setCustomTransactionId c v s

/-- Run an arbitrarily interleaved program: a list of (chain, operation)
pairs executed left to right. -/
def runOps (prog : List (Nat × CtxOp)) (s : ALS) : ALS :=
  match prog with
  | [] => s
  | (c, op) :: rest => runOps rest (CtxOp.run c op s)

/-- The attribute triple predicted by the specification's words for P5
(spec-side definition, for comparison with the code): keep each of the
name / message / stack fields of the thrown value when present and a
string, and substitute the fallback literal only for absent or non-string
fields. -/
def claimErrorAttrs (v : JSVal) : String × String × String :=
  (v.name.getD "UnknownError", v.message.getD v.str,
    v.stack.getD "No stack trace available")

/-- Emit behaviour whose subscribers never throw. -/
def emitOk : Event → Except JSVal Unit := fun _ => Except.ok ()

/-- An Error value thrown by a collaborator in the concrete scenarios. -/
def errBoom : JSVal := ⟨true, some "Error", some "boom", none, "Error: boom"⟩

/-- An Error thrown by an event subscriber in the concrete scenarios. -/
def errSub : JSVal := ⟨true, some "Error", some "subscriber", none, "Error: subscriber"⟩

/-- Interceptor environment of a unit of work that owns the active span. -/
def otelEnvOwner : OtelEnv :=
  ⟨some "t", some "t", Except.ok (), true, Except.ok (), Except.ok (), emitOk⟩

/-- New Relic finalizer environment with an active trace but no stored marker. -/
def nrEnvNoMarker : NREnv := ⟨none, Except.ok (some "abc"), Except.ok (), emitOk⟩

/-- Otel owner environment in which span.end throws. -/
def otelEnvEndThrows : OtelEnv :=
  ⟨some "t", some "t", Except.error errBoom, true, Except.ok (), Except.ok (), emitOk⟩

/-- New Relic finalizer environment in which endTransaction throws. -/
def nrEnvEndThrows : NREnv :=
  ⟨none, Except.ok (some "abc"), Except.error errBoom, emitOk⟩

/-- Otel interceptor environment with no active span at intercept time. -/
def otelEnvNoSpan : OtelEnv :=
  ⟨none, none, Except.ok (), false, Except.ok (), Except.ok (), emitOk⟩

/-- New Relic finalizer environment with no active transaction and no marker. -/
def nrEnvNoActive : NREnv := ⟨none, Except.ok none, Except.ok (), emitOk⟩

/-- Otel guard environment where creation succeeds and yields an identity. -/
def otelGuardEnvCreate : OtelGuardEnv :=
  ⟨Except.ok none, Except.ok (some "abc"), emitOk⟩

/-- Otel guard environment where creation yields no identity. -/
def otelGuardEnvNoYield : OtelGuardEnv := ⟨Except.ok none, Except.ok none, emitOk⟩

/-- Otel guard environment with an already-active trace identity. -/
def otelGuardEnvActive : OtelGuardEnv :=
  ⟨Except.ok (some "abc"), Except.ok (some "zzz"), emitOk⟩

/-- New Relic guard environment, non-http, creation yields no identity. -/
def nrGuardEnvNoId : NRGuardEnv :=
  ⟨false, Except.ok none, Except.ok (), Except.ok (), Except.ok none, emitOk⟩

/-- New Relic guard environment, http, creation yields an identity. -/
def nrGuardEnvHttpId : NRGuardEnv :=
  ⟨true, Except.ok none, Except.ok (), Except.ok (), Except.ok (some "abc"), emitOk⟩

/-- New Relic guard environment with an already-active trace identity. -/
def nrGuardEnvActive : NRGuardEnv :=
  ⟨false, Except.ok (some "abc"), Except.ok (), Except.ok (), Except.ok none, emitOk⟩

/-- Emit behaviour whose subscribers always throw. -/
def emitThrowing : Event → Except JSVal Unit := fun _ => Except.error errSub

/-- Otel guard environment where the tracing query throws and every event
subscriber throws as well. -/
def otelGuardEnvThrowing : OtelGuardEnv :=
  ⟨Except.error errBoom, Except.ok none, emitThrowing⟩

/-- A non-Error thrown value carrying its own string name field. -/
def objWithName : JSVal := ⟨false, some "CustomError", none, none, "[object Object]"⟩

/-- A non-Error thrown value with no usable fields. -/
def objPlain : JSVal := ⟨false, none, none, none, "[object Object]"⟩

theorem recordException_never_throws (p : Bool) (b : Except JSVal Unit) :
    otelInstrumentation.recordException p b = Except.ok () := by
  unfold otelInstrumentation.recordException
  split <;> rfl

theorem addAttributes_never_throws (p : Bool) (b : Except JSVal Unit) :
    otelInstrumentation.addAttributes p b = Except.ok () := by
  unfold otelInstrumentation.addAttributes
  split <;> rfl

theorem recordError_never_throws (env : OtelEnv) (e : JSVal) :
    (OtelInterceptor.recordError env e).thrown = none := by
  unfold OtelInterceptor.recordError
  rw [recordException_never_throws, addAttributes_never_throws]

theorem finishSpan_endCalls (env : OtelEnv) (t : String) :
    (OtelInterceptor.finishSpan env t).endCalls
      = if env.marker = some t then 1 else 0 := by
  unfold OtelInterceptor.finishSpan
  repeat' split
  all_goals rfl

theorem InternalContext.get_fst (b : Nat) (s : ALS) :
    (InternalContext.getCustomTransactionId b s).1
      = (s.state b).bind StoreRec.customTransactionId := by
  unfold InternalContext.getCustomTransactionId InternalContext.store
  cases h : s.state b <;> simp [h]

theorem CtxOp.run_state_other (c b : Nat) (op : CtxOp) (s : ALS) (h : c ≠ b) :
    (CtxOp.run c op s).state b = s.state b := by
  have hb : (b = c) = False := by
    simp only [eq_iff_iff, iff_false]
    exact fun hbc => h hbc.symm
  cases op <;>
    unfold CtxOp.run InternalContext.getCustomTransactionId
      InternalContext.setCustomTransactionId InternalContext.store <;>
    cases hs : s.state c <;>
    simp [hs, hb]

/-- C9: across concurrently-interleaved units of work, the OwnershipMarker
written by one chain is never observed by another: any interleaved program
of get / set operations performed by chains other than b leaves what chain b
reads from InternalContext unchanged. -/
theorem claim9_thm (prog : List (Nat × CtxOp)) (b : Nat) (s : ALS)
    (h : ∀ p ∈ prog, p.1 ≠ b) :
    (InternalContext.getCustomTransactionId b (runOps prog s)).1
      = (InternalContext.getCustomTransactionId b s).1 := by
  induction prog generalizing s with
  | nil => rfl
  | cons hd tl ih =>
    obtain ⟨c, op⟩ := hd
    have hc : c ≠ b := h (c, op) (List.mem_cons_self _ _)
    have htl : ∀ p ∈ tl, p.1 ≠ b := fun p hp => h p (List.mem_cons_of_mem _ hp)
    show (InternalContext.getCustomTransactionId b (runOps tl (CtxOp.run c op s))).1 = _
    rw [ih (CtxOp.run c op s) htl, InternalContext.get_fst, InternalContext.get_fst,
      CtxOp.run_state_other c b op s hc]

/-- Witness for C9 at a concrete interleaving: chain 0 writes its marker,
chain 1 still reads nothing. -/
theorem claim9_witness :
    (InternalContext.getCustomTransactionId 1
        (runOps [(0, CtxOp.set "abc")] ALS.empty)).1
      = (InternalContext.getCustomTransactionId 1 ALS.empty).1 :=
  claim9_thm [(0, CtxOp.set "abc")] 1 ALS.empty
    (by intro p hp; simp at hp; rw [hp]; decide)

/-- C10: within one chain, reading customTransactionId before any set
returns undefined without throwing while lazily materialising the empty
record, and reading after setting value v returns exactly v. -/
theorem claim10_thm (c : Nat) (v : String) (s : ALS) :
    (InternalContext.getCustomTransactionId c ALS.empty).1 = none
    ∧ (InternalContext.getCustomTransactionId c ALS.empty).2.state c = some ⟨none⟩
    ∧ (InternalContext.getCustomTransactionId c
        (InternalContext.setCustomTransactionId c v s)).1 = some v := by
  refine ⟨rfl, ?_, ?_⟩
  · unfold InternalContext.getCustomTransactionId InternalContext.store ALS.empty
    simp
  · unfold InternalContext.getCustomTransactionId InternalContext.setCustomTransactionId
      InternalContext.store
    cases hs : s.state c <;> simp [hs]

theorem finishSpan_never_throws_of_emit_ok (env : OtelEnv) (t : String)
    (h : ∀ ev, env.emit ev = Except.ok ()) :
    (OtelInterceptor.finishSpan env t).thrown = none := by
  unfold OtelInterceptor.finishSpan
  simp only [h]
  repeat' split
  all_goals rfl

theorem finishTransaction_never_throws (env : NREnv) :
    (NewRelicInterceptor.finishTransaction env).thrown = none := by
  unfold NewRelicInterceptor.finishTransaction
  repeat' split
  all_goals rfl

theorem finishTransaction_no_finishFailed (env : NREnv) (x : JSVal) :
    Event.transactionFinishFailed x ∉ (NewRelicInterceptor.finishTransaction env).events := by
  unfold NewRelicInterceptor.finishTransaction
  repeat' split
  all_goals simp

theorem recordError_eq (env : OtelEnv) (v : JSVal) :
    OtelInterceptor.recordError env v
      = ⟨[if v.isError then v else mkError v.str],
         [(jsOr (if v.isError then v.name else some "UnknownError") "UnknownError",
           jsOr (if v.isError then v.message else some v.str) v.str,
           jsOr (if v.isError then v.stack else none) "No stack trace available")],
         [], none⟩ := by
  unfold OtelInterceptor.recordError
  rw [recordException_never_throws, addAttributes_never_throws]

theorem finishSpan_end_error (env : OtelEnv) (t : String) (e : JSVal)
    (hM : env.marker = some t) (hEnd : env.endSpan = Except.error e)
    (hEmit : env.emit (Event.spanFinishFailed e) = Except.ok ()) :
    OtelInterceptor.finishSpan env t = ⟨[Event.spanFinishFailed e], 1, none⟩ := by
  unfold OtelInterceptor.finishSpan
  simp [hM, hEnd, hEmit]

/-- C1 (amended): in the OpenTelemetry variant, for every finalizer run that
captures an active trace identity, span.end is invoked exactly once iff the
captured identity equals the stored OwnershipMarker.  In the New Relic
variant, provided reading the trace metadata and publishing
transactionFinished do not throw, endTransaction is invoked iff no truthy
marker is stored or the captured identity equals the marker; the
claim's iff with the marker only holds there when a truthy marker exists. -/
theorem claim1_thm {α : Type} (envO : OtelEnv) (o : Outcome α) (t : String)
    (hA : envO.activeSpan = some t)
    (envN : NREnv) (tn : Option String)
    (hM : envN.traceMetadata = Except.ok tn)
    (hE : envN.emit (Event.transactionFinished tn) = Except.ok ()) :
    ((OtelInterceptor.intercept envO o).endCalls
        = if envO.marker = some t then 1 else 0)
    ∧ ((NewRelicInterceptor.finishTransaction envN).endCalls
        = if truthy envN.marker && (tn != envN.marker) then 0 else 1) := by
  constructor
  · cases o with
    | ok v => simp [OtelInterceptor.intercept, hA, finishSpan_endCalls]
    | err e =>
      simp [OtelInterceptor.intercept, hA, recordError_eq, finishSpan_endCalls]
  · unfold NewRelicInterceptor.finishTransaction
    simp only [hM, hE]
    split
    · rfl
    · cases envN.endTransaction <;> rfl

/-- Counterexample to C1 as stated: in the New Relic variant, with no
OwnershipMarker stored and captured identity "abc" (which therefore differs
from the marker), endTransaction is still invoked. -/
theorem claim1_counterexample :
    (NewRelicInterceptor.finishTransaction nrEnvNoMarker).endCalls = 1
    ∧ nrEnvNoMarker.traceMetadata = Except.ok (some "abc")
    ∧ nrEnvNoMarker.marker ≠ some "abc" :=
  ⟨rfl, rfl, by simp [nrEnvNoMarker]⟩

/-- Witness for C1 at concrete inputs. -/
theorem claim1_witness :
    ((OtelInterceptor.intercept otelEnvOwner (Outcome.ok (0 : Nat))).endCalls
        = if otelEnvOwner.marker = some "t" then 1 else 0)
    ∧ ((NewRelicInterceptor.finishTransaction nrEnvNoMarker).endCalls
        = if truthy nrEnvNoMarker.marker
            && ((some "abc" : Option String) != nrEnvNoMarker.marker) then 0 else 1) :=
  claim1_thm otelEnvOwner (Outcome.ok 0) "t" rfl nrEnvNoMarker (some "abc") rfl rfl

/-- C2: outcome transparency — for every handler outcome, the outcome
observed by the caller after the finalizer's wrapping is unchanged, for
every behaviour of span ending, exception recording and attribute setting
(including throwing), in both variants; in the OpenTelemetry variant this
additionally assumes the event subscribers do not throw (the New Relic
conjunct holds even without that assumption). -/
theorem claim2_thm {α : Type} (envO : OtelEnv) (envN : NREnv) (o : Outcome α)
    (hE : ∀ ev, envO.emit ev = Except.ok ()) :
    (OtelInterceptor.intercept envO o).outcome = o
    ∧ (NewRelicInterceptor.intercept envN o).outcome = o := by
  constructor
  · unfold OtelInterceptor.intercept
    cases hA : envO.activeSpan with
    | none => rfl
    | some t =>
      cases o with
      | ok v => simp [finishSpan_never_throws_of_emit_ok envO t hE]
      | err e => simp [recordError_eq, finishSpan_never_throws_of_emit_ok envO t hE]
  · unfold NewRelicInterceptor.intercept
    simp [finishTransaction_never_throws]

/-- Witness for C2 at concrete inputs. -/
theorem claim2_witness :
    (OtelInterceptor.intercept otelEnvOwner (Outcome.ok (0 : Nat))).outcome
        = Outcome.ok 0
    ∧ (NewRelicInterceptor.intercept nrEnvNoMarker (Outcome.ok (0 : Nat))).outcome
        = Outcome.ok 0 :=
  claim2_thm otelEnvOwner nrEnvNoMarker (Outcome.ok 0) (fun _ => rfl)

/-- C3 (amended): in the OpenTelemetry variant, when ending the owned span
throws, the exception is caught, spanFinishFailed carrying it is published,
and the handler outcome still propagates unchanged.  In the New Relic
variant the exception is also caught and never rethrown, but it is
swallowed silently: no finalize-failure event of any kind is published. -/
theorem claim3_thm {α : Type} (envO : OtelEnv) (o : Outcome α) (t : String) (e : JSVal)
    (hA : envO.activeSpan = some t) (hM : envO.marker = some t)
    (hEnd : envO.endSpan = Except.error e)
    (hEmit : ∀ ev, envO.emit ev = Except.ok ())
    (envN : NREnv) (e2 : JSVal) (_hEndN : envN.endTransaction = Except.error e2) :
    Event.spanFinishFailed e ∈ (OtelInterceptor.intercept envO o).events
    ∧ (OtelInterceptor.intercept envO o).outcome = o
    ∧ (NewRelicInterceptor.finishTransaction envN).thrown = none
    ∧ ∀ x, Event.transactionFinishFailed x
        ∉ (NewRelicInterceptor.finishTransaction envN).events := by
  have hfs := finishSpan_end_error envO t e hM hEnd (hEmit _)
  refine ⟨?_, ?_, finishTransaction_never_throws envN,
    fun x => finishTransaction_no_finishFailed envN x⟩
  · cases o with
    | ok v => simp [OtelInterceptor.intercept, hA, hfs]
    | err e3 => simp [OtelInterceptor.intercept, hA, hfs, recordError_eq]
  · cases o with
    | ok v => simp [OtelInterceptor.intercept, hA, hfs]
    | err e3 => simp [OtelInterceptor.intercept, hA, hfs, recordError_eq]

/-- Counterexample to C3 as stated: in the New Relic variant, when
endTransaction throws, the only event published is transactionFinished —
no finalize-failure event carrying the error appears. -/
theorem claim3_counterexample :
    nrEnvEndThrows.endTransaction = Except.error errBoom
    ∧ (NewRelicInterceptor.finishTransaction nrEnvEndThrows).events
        = [Event.transactionFinished (some "abc")]
    ∧ (NewRelicInterceptor.finishTransaction nrEnvEndThrows).endCalls = 1 :=
  ⟨rfl, rfl, rfl⟩

/-- Witness for C3 at concrete inputs. -/
theorem claim3_witness :
    Event.spanFinishFailed errBoom
        ∈ (OtelInterceptor.intercept otelEnvEndThrows (Outcome.ok (0 : Nat))).events
    ∧ (OtelInterceptor.intercept otelEnvEndThrows (Outcome.ok (0 : Nat))).outcome
        = Outcome.ok 0
    ∧ (NewRelicInterceptor.finishTransaction nrEnvEndThrows).thrown = none
    ∧ ∀ x, Event.transactionFinishFailed x
        ∉ (NewRelicInterceptor.finishTransaction nrEnvEndThrows).events :=
  claim3_thm otelEnvEndThrows (Outcome.ok 0) "t" errBoom rfl rfl rfl
    (fun _ => rfl) nrEnvEndThrows errBoom rfl

/-- C4 (amended): in the OpenTelemetry variant, when the establisher finds
no active identity and creation yields a truthy TraceIdentity, the identity
is stored as the OwnershipMarker and spanStarted carrying it is published,
and when creation yields no identity nothing is stored and no event is
published.  In the New Relic variant the marker is likewise stored iff an
identity was obtained, but transactionStarted is published unconditionally
after every completed creation attempt, carrying undefined when no identity
was obtained. -/
theorem claim4_thm :
    (∀ (env : OtelGuardEnv) (t0 : Option String) (s : String),
      env.getCurrentTransactionId = Except.ok t0 → truthy t0 = false →
      env.create = Except.ok (some s) → s ≠ "" →
      (OtelContextGuard.canActivate env).stores = [s]
      ∧ Event.spanStarted s ∈ (OtelContextGuard.canActivate env).events)
    ∧ (∀ (env : OtelGuardEnv) (t0 : Option String),
      env.getCurrentTransactionId = Except.ok t0 → truthy t0 = false →
      env.create = Except.ok none →
      OtelContextGuard.canActivate env = ⟨Except.ok true, [], [], true⟩)
    ∧ (∀ (env : NRGuardEnv) (t0 : Option String),
      env.isHttp = false →
      env.traceMetadata1 = Except.ok t0 → truthy t0 = false →
      env.startWebTransaction = Except.ok () →
      (NewrelicContextGuard.canActivate env).stores = []
      ∧ Event.transactionStarted t0 ∈ (NewrelicContextGuard.canActivate env).events)
    ∧ (∀ (env : NRGuardEnv) (t0 : Option String) (s : String),
      env.isHttp = true →
      env.traceMetadata1 = Except.ok t0 → truthy t0 = false →
      env.startWebTransaction = Except.ok () →
      env.acceptDistributedTraceHeaders = Except.ok () →
      env.traceMetadata2 = Except.ok (some s) → s ≠ "" →
      (NewrelicContextGuard.canActivate env).stores = [s]
      ∧ Event.transactionStarted (some s) ∈ (NewrelicContextGuard.canActivate env).events) := by
  refine ⟨?_, ?_, ?_, ?_⟩
  · intro env t0 s hq ht hc hs
    unfold OtelContextGuard.canActivate
    simp only [hq, ht, hc]
    cases he : env.emit (Event.spanStarted s) with
    | ok u => simp [hs, he]
    | error e =>
      cases he2 : env.emit (Event.spanStartFailed e) <;> simp [hs, he, he2]
  · intro env t0 hq ht hc
    unfold OtelContextGuard.canActivate
    simp [hq, ht, hc]
  · intro env t0 hh hq ht hst
    have ht0 : t0 = none ∨ t0 = some "" := by
      cases t0 with
      | none => exact Or.inl rfl
      | some x =>
        have hx : x = "" := by simpa [truthy] using ht
        exact Or.inr (by rw [hx])
    rcases ht0 with h0 | h0 <;> subst h0
    · unfold NewrelicContextGuard.canActivate NewrelicContextGuard.onError
      simp [hq, hst, hh, truthy]
      cases he : env.emit (Event.transactionStarted none) with
      | ok u => simp [he]
      | error e =>
        cases he2 : env.emit (Event.transactionStartFailed none e) <;> simp [he, he2]
    · unfold NewrelicContextGuard.canActivate NewrelicContextGuard.onError
      simp [hq, hst, hh, truthy]
      cases he : env.emit (Event.transactionStarted (some "")) with
      | ok u => simp [he]
      | error e =>
        cases he2 : env.emit (Event.transactionStartFailed (some "") e) <;> simp [he, he2]
  · intro env t0 s hh hq ht hst ha hm2 hs
    unfold NewrelicContextGuard.canActivate NewrelicContextGuard.onError
    simp only [hq, ht, hst, hh, ha, hm2]
    cases he : env.emit (Event.transactionStarted (some s)) with
    | ok u => simp [hs, he]
    | error e =>
      cases he2 : env.emit (Event.transactionStartFailed (some s) e) <;>
        simp [hs, he, he2]

/-- Counterexample to C4 as stated: in the New Relic variant, a non-http
unit of work whose creation attempt yields no identity stores no marker yet
still publishes transactionStarted (with undefined identity). -/
theorem claim4_counterexample :
    (NewrelicContextGuard.canActivate nrGuardEnvNoId).stores = []
    ∧ (NewrelicContextGuard.canActivate nrGuardEnvNoId).events
        = [Event.transactionStarted none] :=
  ⟨rfl, rfl⟩

/-- Witness for C4 at concrete inputs. -/
theorem claim4_witness :
    ((OtelContextGuard.canActivate otelGuardEnvCreate).stores = ["abc"]
      ∧ Event.spanStarted "abc" ∈ (OtelContextGuard.canActivate otelGuardEnvCreate).events)
    ∧ OtelContextGuard.canActivate otelGuardEnvNoYield = ⟨Except.ok true, [], [], true⟩
    ∧ ((NewrelicContextGuard.canActivate nrGuardEnvNoId).stores = []
      ∧ Event.transactionStarted none ∈ (NewrelicContextGuard.canActivate nrGuardEnvNoId).events)
    ∧ ((NewrelicContextGuard.canActivate nrGuardEnvHttpId).stores = ["abc"]
      ∧ Event.transactionStarted (some "abc")
          ∈ (NewrelicContextGuard.canActivate nrGuardEnvHttpId).events) :=
  ⟨claim4_thm.1 otelGuardEnvCreate none "abc" rfl rfl rfl (by decide),
   claim4_thm.2.1 otelGuardEnvNoYield none rfl rfl rfl,
   claim4_thm.2.2.1 nrGuardEnvNoId none rfl rfl rfl rfl,
   claim4_thm.2.2.2 nrGuardEnvHttpId none "abc" rfl rfl rfl rfl rfl rfl (by decide)⟩

/-- C5 (amended): in the OpenTelemetry variant, when no span is active at
intercept time, finalization is skipped entirely — no end call, no exception
recording, no attribute setting and no event emission — and the outcome
passes through unmodified.  In the New Relic variant the finalizer is not
gated on an active transaction: transactionFinished is published carrying
undefined, and endTransaction is still invoked whenever no truthy marker is
stored; the handler outcome does still pass through unmodified. -/
theorem claim5_thm {α : Type} (envO : OtelEnv) (o : Outcome α)
    (hA : envO.activeSpan = none)
    (envN : NREnv)
    (hM : envN.traceMetadata = Except.ok none)
    (hE : envN.emit (Event.transactionFinished none) = Except.ok ()) :
    OtelInterceptor.intercept envO o = ⟨o, 0, [], [], []⟩
    ∧ (NewRelicInterceptor.finishTransaction envN).events
        = [Event.transactionFinished none]
    ∧ (NewRelicInterceptor.finishTransaction envN).endCalls
        = (if truthy envN.marker then 0 else 1)
    ∧ (NewRelicInterceptor.intercept envN o).outcome = o := by
  refine ⟨?_, ?_, ?_, ?_⟩
  · unfold OtelInterceptor.intercept
    rw [hA]
  · unfold NewRelicInterceptor.finishTransaction
    simp only [hM, hE]
    cases hm : envN.marker with
    | none => cases envN.endTransaction <;> simp [truthy]
    | some x =>
      by_cases hx : x = ""
      · subst hx
        cases envN.endTransaction <;> simp [truthy]
      · simp [truthy, hx]
  · unfold NewRelicInterceptor.finishTransaction
    simp only [hM, hE]
    cases hm : envN.marker with
    | none => cases envN.endTransaction <;> simp [truthy]
    | some x =>
      by_cases hx : x = ""
      · subst hx
        cases envN.endTransaction <;> simp [truthy]
      · simp [truthy, hx]
  · unfold NewRelicInterceptor.intercept
    simp [finishTransaction_never_throws]

/-- Counterexample to C5 as stated: in the New Relic variant, with no active
transaction and no marker, the finalizer still publishes
transactionFinished (with undefined identity) and still calls
endTransaction. -/
theorem claim5_counterexample :
    nrEnvNoActive.traceMetadata = Except.ok none
    ∧ (NewRelicInterceptor.finishTransaction nrEnvNoActive).events
        = [Event.transactionFinished none]
    ∧ (NewRelicInterceptor.finishTransaction nrEnvNoActive).endCalls = 1 :=
  ⟨rfl, rfl, rfl⟩

/-- Witness for C5 at concrete inputs. -/
theorem claim5_witness :
    OtelInterceptor.intercept otelEnvNoSpan (Outcome.ok (0 : Nat))
        = ⟨Outcome.ok 0, 0, [], [], []⟩
    ∧ (NewRelicInterceptor.finishTransaction nrEnvNoActive).events
        = [Event.transactionFinished none]
    ∧ (NewRelicInterceptor.finishTransaction nrEnvNoActive).endCalls
        = (if truthy nrEnvNoActive.marker then 0 else 1)
    ∧ (NewRelicInterceptor.intercept nrEnvNoActive (Outcome.ok (0 : Nat))).outcome
        = Outcome.ok 0 :=
  claim5_thm otelEnvNoSpan (Outcome.ok 0) rfl nrEnvNoActive rfl rfl

/-- C6 (amended): both establishers return continue and never throw for
every behaviour of the tracing collaborator (query, creation, header
extraction throwing) and even when publishing the established event throws,
provided publishing the establish-failure event does not itself throw; an
exception from that last publication is the only one that escapes
canActivate. -/
theorem claim6_thm (envO : OtelGuardEnv) (envN : NRGuardEnv)
    (hO : ∀ e, envO.emit (Event.spanStartFailed e) = Except.ok ())
    (hN : ∀ t e, envN.emit (Event.transactionStartFailed t e) = Except.ok ()) :
    (OtelContextGuard.canActivate envO).result = Except.ok true
    ∧ (NewrelicContextGuard.canActivate envN).result = Except.ok true := by
  constructor
  · unfold OtelContextGuard.canActivate
    simp only [hO]
    repeat' split
    all_goals simp_all [hO]
  · unfold NewrelicContextGuard.canActivate NewrelicContextGuard.onError
    simp only [hN]
    repeat' split
    all_goals simp_all [hN]

/-- Counterexample to C6 as stated: when the tracing query throws and the
establish-failure subscriber also throws, the OpenTelemetry establisher does
not return true — the subscriber's exception escapes canActivate. -/
theorem claim6_counterexample :
    (OtelContextGuard.canActivate otelGuardEnvThrowing).result = Except.error errSub
    ∧ (Except.error errSub : Except JSVal Bool) ≠ Except.ok true :=
  ⟨rfl, by simp⟩

/-- Witness for C6 at concrete inputs. -/
theorem claim6_witness :
    (OtelContextGuard.canActivate otelGuardEnvCreate).result = Except.ok true
    ∧ (NewrelicContextGuard.canActivate nrGuardEnvNoId).result = Except.ok true :=
  claim6_thm otelGuardEnvCreate nrGuardEnvNoId (fun _ => rfl) (fun _ _ => rfl)

/-- C7: in both variants, when the tracing mechanism already reports a
truthy active identity, the establisher returns continue immediately: no
creation is attempted, no marker is stored, and no event is published. -/
theorem claim7_thm (envO : OtelGuardEnv) (envN : NRGuardEnv) (s1 s2 : String)
    (hO : envO.getCurrentTransactionId = Except.ok (some s1)) (h1 : s1 ≠ "")
    (hN : envN.traceMetadata1 = Except.ok (some s2)) (h2 : s2 ≠ "") :
    OtelContextGuard.canActivate envO = ⟨Except.ok true, [], [], false⟩
    ∧ NewrelicContextGuard.canActivate envN = ⟨Except.ok true, [], [], false⟩ := by
  constructor
  · unfold OtelContextGuard.canActivate
    simp [hO, truthy, h1]
  · unfold NewrelicContextGuard.canActivate
    simp [hN, truthy, h2]

/-- Witness for C7 at concrete inputs. -/
theorem claim7_witness :
    OtelContextGuard.canActivate otelGuardEnvActive = ⟨Except.ok true, [], [], false⟩
    ∧ NewrelicContextGuard.canActivate nrGuardEnvActive
        = ⟨Except.ok true, [], [], false⟩ :=
  claim7_thm otelGuardEnvActive nrGuardEnvActive "abc" "abc" rfl (by decide) rfl (by decide)

/-- C8 (amended): for every non-Error thrown value, exception recording is
invoked with the Error-shaped value new Error(String(v)), and the attribute
triple passed to addAttributes is unconditionally the fallback triple
("UnknownError", String(v), "No stack trace available") — the value's own
name / message / stack fields are never consulted. -/
theorem claim8_thm (env : OtelEnv) (v : JSVal) (h : v.isError = false) :
    (OtelInterceptor.recordError env v).recordExceptionArgs = [mkError v.str]
    ∧ (mkError v.str).isError = true
    ∧ (OtelInterceptor.recordError env v).attributeSets
        = [("UnknownError", v.str, "No stack trace available")] := by
  refine ⟨?_, rfl, ?_⟩ <;> simp [recordError_eq, h, jsOr, mkError]

/-- Counterexample to C8 as stated: a non-Error thrown value carrying the
present string name field "CustomError" still yields the attribute name
"UnknownError", whereas the claim's substitute-only-missing-fields rule
predicts "CustomError". -/
theorem claim8_counterexample :
    objWithName.isError = false
    ∧ objWithName.name = some "CustomError"
    ∧ (OtelInterceptor.recordError otelEnvOwner objWithName).attributeSets
        = [("UnknownError", "[object Object]", "No stack trace available")]
    ∧ claimErrorAttrs objWithName
        = ("CustomError", "[object Object]", "No stack trace available")
    ∧ ("UnknownError" : String) ≠ "CustomError" := by
  refine ⟨rfl, rfl, ?_, rfl, by decide⟩
  simp [recordError_eq, objWithName, jsOr]

/-- Witness for C8 at a concrete input. -/
theorem claim8_witness :
    (OtelInterceptor.recordError otelEnvOwner objPlain).recordExceptionArgs
        = [mkError objPlain.str]
    ∧ (mkError objPlain.str).isError = true
    ∧ (OtelInterceptor.recordError otelEnvOwner objPlain).attributeSets
        = [("UnknownError", objPlain.str, "No stack trace available")] :=
  claim8_thm otelEnvOwner objPlain rfl
